import Mathlib

/-!
Verification development for the capa rule-generator core
(`capa/ida/plugin/view.py` and `scripts/detect_duplicate_features.py`).

The Python string operations are modelled over `List Char`:
`strip`/`lstrip`/`rstrip` use `Char.isWhitespace`, `partition` splits at
the first occurrence of a separator, `splitlines` splits at newline
characters, and `str.find` returns the character index of the first
occurrence of the needle.  `str.lstrip(chars)` strips a character SET
from the left, exactly as in Python.
-/

namespace Capa

/-- Python `s.strip()` from the left: drop leading whitespace. -/
def pyLStrip (s : String) : String :=
  String.mk (s.data.dropWhile Char.isWhitespace)

/-- Python `s.rstrip()`: drop trailing whitespace. -/
def pyRStrip (s : String) : String :=
  String.mk ((s.data.reverse.dropWhile Char.isWhitespace).reverse)

/-- Python `s.strip()`: drop leading and trailing whitespace. -/
def pyStrip (s : String) : String :=
  pyRStrip (pyLStrip s)

/-- Python `s.startswith(p)`. -/
def pyStartsWith (s p : String) : Bool :=
  p.data.isPrefixOf s.data

/-- Python `s.endswith(p)`. -/
def pyEndsWith (s p : String) : Bool :=
  p.data.isSuffixOf s.data

/-- Python `s.lstrip(chars)`: drop the leading characters that belong to
the character set `chars` (NOT prefix removal). -/
def pyLStripSet (chars : String) (s : String) : String :=
  String.mk (s.data.dropWhile (fun c => chars.data.contains c))

/-- First occurrence split: Python `s.partition(sep)` for a one-character
separator, returning the parts before and after the separator
(`(s, "")` when the separator does not occur). -/
def splitAtChar (c : Char) : List Char → Option (List Char × List Char)
  | [] => none
  | x :: xs =>
    if x = c then some ([], xs)
    else (splitAtChar c xs).map (fun p => (x :: p.1, p.2))

/-- Python `s.partition(c)` projected to (before, after). -/
def pyPartition (s : String) (c : Char) : String × String :=
  match splitAtChar c s.data with
  | some (a, b) => (String.mk a, String.mk b)
  | none => (s, "")

/-- Split a character list at every occurrence of `c`. -/
def splitOnChar (c : Char) : List Char → List (List Char)
  | [] => [[]]
  | x :: xs =>
    let r := splitOnChar c xs
    if x = c then [] :: r
    else
      match r with
      | h :: t => (x :: h) :: t
      | [] => [[x]]

/-- Python `s.splitlines()` (newline-only model): no trailing empty entry
when the string ends in a newline, and `[]` for the empty string. -/
def splitLines (s : String) : List String :=
  if s.data = [] then []
  else
    let parts := (splitOnChar '\n' s.data).map String.mk
    if pyEndsWith s "\n" then parts.dropLast else parts

/-- Python `s.find(pat)` (character index of the first occurrence). -/
def findSubAux (pat : List Char) : List Char → Nat → Option Nat
  | s, i =>
    if pat.isPrefixOf s then some i
    else
      match s with
      | [] => none
      | _ :: t => findSubAux pat t (i + 1)

/-- Python `s.find(pat)`, `none` when absent. -/
def findSub (s pat : String) : Option Nat :=
  findSubAux pat.data s.data 0

/-- Python character-index slicing `s[:n]`. -/
def pyTake (s : String) (n : Nat) : String :=
  String.mk (s.data.take n)

/-- Python character-index slicing `s[n:]`. -/
def pyDrop (s : String) (n : Nat) : String :=
  String.mk (s.data.drop n)

/-- A run of `n` spaces. -/
def spaces (n : Nat) : String :=
  String.mk (List.replicate n ' ')

/-!
A small backtracking matcher for the two fixed regular-expression
patterns used in `view.py`.  Both patterns are a plain concatenation of
literal characters and greedy one-character-class quantifiers, so a
pattern is a token list.  The matcher implements the backtracking
priority of `re`: a greedy quantifier first takes the longest run and
gives characters back from the right on failure, and `re.search` tries
start positions from the left.
-/

/-- One token of a (concatenation-only) pattern: a literal character, a
greedy `+` over a character class (capturing or not), or a greedy
non-capturing `*` over a character class. -/
inductive Tok
  | lit (c : Char)
  | many1 (p : Char → Bool) (cap : Bool)
  | many0 (p : Char → Bool)

/-- The literal tokens of a string. -/
def litToks (s : String) : List Tok :=
  s.data.map Tok.lit

/-- The first success of `f` over a list, in order. -/
def firstSome {α β : Type} (f : α → Option β) : List α → Option β
  | [] => none
  | a :: as =>
    match f a with
    | some b => some b
    | none => firstSome f as

/-- The candidate (consumed, remainder) splits of a greedy quantifier
over the character class `p`: every prefix of the maximal run of `p`,
longest first — the order in which a backtracking engine tries them. -/
def splitCands (p : Char → Bool) (xs : List Char) : List (List Char × List Char) :=
  let run := xs.takeWhile p
  (List.range (run.length + 1)).reverse.map (fun k => (xs.take k, xs.drop k))

/-- Match a token list against a character list starting at its head
(the rest of the subject may be left over, as with `re.search`),
returning the captured groups in order.  A greedy quantifier tries the
longest run first and gives characters back on failure of the rest of
the pattern, matching the backtracking priority of `re`. -/
def matchToks : List Tok → List Char → Option (List String)
  | [], _ => some []
  | Tok.lit _ :: _, [] => none
  | Tok.lit c :: ts, x :: xs => if x = c then matchToks ts xs else none
  | Tok.many1 p cap :: ts, xs =>
    firstSome
      (fun q => (matchToks ts q.2).map
        (fun caps => if cap then String.mk q.1 :: caps else caps))
      ((splitCands p xs).filter (fun q => q.1.length ≠ 0))
  | Tok.many0 p :: ts, xs =>
    firstSome (fun q => matchToks ts q.2) (splitCands p xs)

/-- Python `re.search`: try each start position from the left. -/
def reSearch (ts : List Tok) : List Char → Option (List String)
  | [] => matchToks ts []
  | x :: rest =>
    match matchToks ts (x :: rest) with
    | some caps => some caps
    | none => reSearch ts rest

/-- Class `\s` (whitespace model shared with `strip`). -/
def wsChar (c : Char) : Bool := c.isWhitespace

/-- Class `.` (any character except a newline). -/
def dotChar (c : Char) : Bool := c ≠ '\n'

/-- Class `[a-zA-Z]`. -/
def alphaChar (c : Char) : Bool := c.isAlpha

/-- The classifier pattern of `parse_feature_for_node`
(the count shape with an embedded description and a count). -/
def countPatA : List Tok :=
  litToks "- count(" ++ [Tok.many1 alphaChar true, Tok.lit '(', Tok.many1 dotChar true,
    Tok.many1 wsChar false, Tok.lit '=', Tok.many1 wsChar false, Tok.many1 dotChar true]
    ++ litToks ")):" ++ [Tok.many0 wsChar, Tok.many1 dotChar true]

/-- The serializer pattern of `parse_node_for_feature`
(the count shape without an embedded description). -/
def countPatB : List Tok :=
  litToks "- count(" ++ [Tok.many1 alphaChar true, Tok.lit '(', Tok.many1 dotChar true]
    ++ litToks ")): " ++ [Tok.many1 dotChar true]

/-!  Line Classifier (`view.py` lines 28-60, 114-135). -/

/-- Function `calc_level_by_indent`: a blank line returns `prev_level`; a line
whose left-stripped content begins with the token `description` counts
two fewer leading characters; otherwise the level is the count of
leading whitespace characters (as length difference, so it can go
negative after the two-character adjustment). -/
def calc_level_by_indent (line : String) (prev_level : Int) : Int :=
  if (pyStrip line).data = [] then prev_level
  else
    let stripped := pyLStrip line
    let line2 := if pyStartsWith stripped "description" then pyDrop line 2 else line
    (line2.data.length : Int) - (stripped.data.length : Int)

/-- Function `parse_feature_for_node`: split one physical line into
(feature text, description, comment), all stripped.  A `- count` line
first loses its `#` comment, then the count pattern (if it matches)
extracts name/value/description/count and the feature text is rebuilt
without the description; any other non-comment line is split at `#`
for the comment and at `=` for the inline description. -/
def parse_feature_for_node (feature : String) : String × String × String :=
  if pyStartsWith feature "- count" then
    let p := pyPartition feature '#'
    match reSearch countPatA p.1.data with
    | some [name, value, description, count] =>
      (pyStrip ("- count(" ++ name ++ "(" ++ value ++ ")): " ++ count),
        pyStrip description, pyStrip p.2)
    | _ => (pyStrip p.1, "", pyStrip p.2)
  else if ¬ pyStartsWith feature "#" then
    let p := pyPartition feature '#'
    let q := pyPartition p.1 '='
    (pyStrip q.1, pyStrip q.2, pyStrip p.2)
  else
    (pyStrip feature, pyStrip "", pyStrip "")

/-!  Tree Serializer, one node (`view.py` lines 63-111). -/

/-- Function `parse_node_for_feature`: render one node as text, indented by
`2*depth + 4` spaces, with the per-kind description formatting rules
and the trailing `#` comment re-appended; the result is always
newline-terminated. -/
def parse_node_for_feature (feature description comment : String) (depth0 : Nat) : String :=
  let depth := depth0 * 2 + 4
  let display :=
    if pyStartsWith feature "#" then
      spaces depth ++ feature ++ "\n"
    else if description.data ≠ [] then
      if pyStartsWith feature "- and" ∨ pyStartsWith feature "- or" ∨
          pyStartsWith feature "- optional" ∨ pyStartsWith feature "- basic block" ∨
          pyStartsWith feature "- not" then
        spaces depth ++ feature ++ (if comment.data ≠ [] then " # " ++ comment else "")
          ++ "\n" ++ spaces (depth + 2) ++ "- description: " ++ description ++ "\n"
      else if pyStartsWith feature "- string" then
        spaces depth ++ feature ++ (if comment.data ≠ [] then " # " ++ comment else "")
          ++ "\n" ++ spaces (depth + 2) ++ "description: " ++ description ++ "\n"
      else if pyStartsWith feature "- count" then
        match reSearch countPatB feature.data with
        | some [name, value, count] =>
          if name = "string" then
            spaces depth ++ feature ++ (if comment.data ≠ [] then " # " ++ comment else "")
              ++ "\n" ++ spaces (depth + 2) ++ "description: " ++ description ++ "\n"
          else
            spaces depth ++ "- count(" ++ name ++ "(" ++ value ++ " = " ++ description
              ++ ")): " ++ count ++ (if comment.data ≠ [] then " # " ++ comment ++ "\n" else "")
        | _ => ""
      else
        spaces depth ++ feature ++ " = " ++ description
          ++ (if comment.data ≠ [] then " # " ++ comment ++ "\n" else "")
    else
      spaces depth ++ feature ++ (if comment.data ≠ [] then " # " ++ comment ++ "\n" else "")
  if pyEndsWith display "\n" then display else display ++ "\n"

/-!  Classified lines and `yaml_to_nodes` (`view.py` lines 114-135). -/

/-- A classified line: the three text columns of a tree item, the
indentation level stored as `capa_level` and the node kind stored as
`capa_type` (0 = expression, 1 = feature, 2 = comment). -/
structure LNode where
  feature : String
  description : String
  comment : String
  lvl : Int
  typ : Nat
deriving DecidableEq, Repr

/-- The `capa_type` classification of `yaml_to_nodes`. -/
def classifyType (feature : String) : Nat :=
  if pyStartsWith feature "- and:" ∨ pyStartsWith feature "- or:" ∨
      pyStartsWith feature "- not:" ∨ pyStartsWith feature "- basic block:" ∨
      pyStartsWith feature "- optional:" then 0
  else if pyStartsWith feature "#" then 2
  else 1

/-- Function `yaml_to_nodes`: one classified node per line.  The local variable
`level` is initialised to 0 and never reassigned in the loop, so every
line is classified with `prev_level = 0`. -/
def yaml_to_nodes (s : String) : List LNode :=
  let level : Int := 0
  (splitLines s).map (fun line =>
    let p := parse_feature_for_node (pyStrip line)
    { feature := p.1, description := p.2.1, comment := p.2.2,
      lvl := calc_level_by_indent line level, typ := classifyType p.1 })

/-!
Tree Builder (`view.py` lines 532-586).  The Qt tree of
`CapaExplorerRulgenEditor` is modelled as a rose tree carrying the
three text columns, `capa_level` and `capa_type`; the mutable
parent/child pointers of the builder are modelled as a zipper whose
focus is the current `parent` and whose context holds the chain of
ancestors (each with the children to the left of the focused child).
-/

/-- A built tree node: feature, description, comment, `capa_level`,
`capa_type`, children. -/
inductive DTree where
  | node (feature description comment : String) (lvl : Int) (typ : Nat)
      (children : List DTree)

/-- The feature text of a node. -/
def DTree.feat : DTree → String
  | .node f _ _ _ _ _ => f

/-- The description column of a node. -/
def DTree.descr : DTree → String
  | .node _ d _ _ _ _ => d

/-- The comment column of a node. -/
def DTree.comm : DTree → String
  | .node _ _ c _ _ _ => c

/-- The `capa_level` of a node. -/
def DTree.level : DTree → Int
  | .node _ _ _ l _ _ => l

/-- The children of a node. -/
def DTree.children : DTree → List DTree
  | .node _ _ _ _ _ ch => ch

/-- Replace the description column (Qt `setText(1, v)`). -/
def DTree.setDescr : DTree → String → DTree
  | .node f _ c l ty ch, v => .node f v c l ty ch

/-- Append a child at the last position (Qt `addChild`). -/
def DTree.appendChild : DTree → DTree → DTree
  | .node f d c l ty ch, t => .node f d c l ty (ch ++ [t])

/-- Replace the description column of the last child. -/
def DTree.setLastChildDescr : DTree → String → DTree
  | .node f d c l ty ch, v =>
    match ch.getLast? with
    | none => .node f d c l ty ch
    | some last => .node f d c l ty (ch.dropLast ++ [last.setDescr v])

/-- A childless tree node from a classified line. -/
def leafOf (n : LNode) : DTree :=
  .node n.feature n.description n.comment n.lvl n.typ []

/-- One ancestor frame of the zipper: the fields of the parent node and
the children to the left of the focused (last) child. -/
structure ZFrame where
  feature : String
  description : String
  comment : String
  lvl : Int
  typ : Nat
  left : List DTree

/-- The ancestor chain, innermost (immediate parent) first. -/
abbrev Ctx := List ZFrame

/-- Rebuild a parent node from its frame and its focused last child. -/
def closeFrame (f : ZFrame) (t : DTree) : DTree :=
  .node f.feature f.description f.comment f.lvl f.typ (f.left ++ [t])

/-- Python `parent.parent() if parent.parent() else parent`: move the focus one
level up, staying put at the root. -/
def ascend (ctx : Ctx) (t : DTree) : Ctx × DTree :=
  match ctx with
  | [] => ([], t)
  | f :: rest => (rest, closeFrame f t)

/-- Python `parent.child(parent.childCount() - 1)`: descend into the last
child; with no children, Qt `child(-1)` yields no item (`None`). -/
def descendLast (ctx : Ctx) (t : DTree) : Option (Ctx × DTree) :=
  match t with
  | .node f d c l ty ch =>
    match ch.getLast? with
    | none => none
    | some last =>
      some (⟨f, d, c, l, ty, ch.dropLast⟩ :: ctx, last)

/-- Close all remaining frames to recover the whole tree. -/
def rootify : Ctx → DTree → DTree
  | [], t => t
  | f :: rest, t => rootify rest (closeFrame f t)

/-- The value stored by the description branches of `add_node`:
Python `text.lstrip(marker).lstrip()` (character-set strip, then
whitespace strip, both from the left only). -/
def descValue (marker : String) (s : String) : String :=
  pyLStrip (pyLStripSet marker s)

/-- Function `add_node` of `load_features_from_yaml`: a line whose feature text
begins with `description:` overwrites the description of the last
child of `parent` (of `parent` itself when it has no children); a line
beginning with `- description:` overwrites the description of
`parent`; every other line is appended as a new child. -/
def addNodeT (t : DTree) (n : LNode) : DTree :=
  if pyStartsWith n.feature "description:" then
    if t.children.length ≠ 0 then t.setLastChildDescr (descValue "description:" n.feature)
    else t.setDescr (descValue "description:" n.feature)
  else if pyStartsWith n.feature "- description:" then
    t.setDescr (descValue "- description:" n.feature)
  else
    t.appendChild (leafOf n)

/-- The loop of `build`, with its recursion fused: a node at the
current level is added to the focus; a deeper node descends into the
last child (re-entering `build` there, which immediately adds the node
and continues with the deeper level); with no last child the recursive
call receives `None` and `add_node` dereferences it (`AttributeError`);
a shallower node moves the focus one level up and is added there,
leaving the current level unchanged. -/
def buildLoop (ctx : Ctx) (focus : DTree) (lvl : Int) :
    List LNode → Except String (Ctx × DTree)
  | [] => .ok (ctx, focus)
  | n :: rest =>
    if n.lvl = lvl then
      buildLoop ctx (addNodeT focus n) lvl rest
    else if n.lvl > lvl then
      match descendLast ctx focus with
      | none => .error "AttributeError"
      | some (ctx2, focus2) => buildLoop ctx2 (addNodeT focus2 n) n.lvl rest
    else
      let p := ascend ctx focus
      buildLoop p.1 (addNodeT p.2 n) lvl rest

/-- Python `build(self.root, rule_nodes)`: the current level starts at the
first line of the sequence. -/
def buildT (root : LNode) (ns : List LNode) : Except String DTree :=
  match ns with
  | [] => .ok (leafOf root)
  | n :: _ =>
    (buildLoop [] (leafOf root) n.lvl ns).map (fun p => rootify p.1 p.2)

/-- Function `load_features_from_yaml`: no `features:` marker or no classified
lines yields no tree; otherwise the text after the marker is stripped,
classified line by line, the first node becomes the root and the rest
are consumed by `build`. -/
def load_features_from_yaml (rule_text : String) : Except String (Option DTree) :=
  match findSub rule_text "features:" with
  | none => .ok none
  | some i =>
    let rule_features := pyStrip (pyDrop rule_text (i + 9))
    match yaml_to_nodes rule_features with
    | [] => .ok none
    | root :: rest => (buildT root rest).map (fun t => some t)

/-!  Tree Serializer, whole tree (`view.py` lines 369-392). -/

mutual

/-- Pre-order serialization of a tree: the node itself (columns
stripped, depth = distance from the root), then its children. -/
def serializeTree : DTree → Nat → String
  | .node f d c _ _ ch, depth =>
    parse_node_for_feature (pyStrip f) (pyStrip d) (pyStrip c) depth
      ++ serializeForest ch (depth + 1)

/-- Serialize a list of sibling subtrees in order. -/
def serializeForest : List DTree → Nat → String
  | [], _ => ""
  | t :: ts, depth => serializeTree t depth ++ serializeForest ts depth

end

/-- Function `update_preview`: the preview text is kept verbatim up to and
including the first `features:` (a synthetic `  features:` block is
appended when absent), followed by the serialized tree. -/
def update_preview (rule_text : String) (tree : Option DTree) : String :=
  let header :=
    match findSub rule_text "features:" with
    | some i => pyTake rule_text (i + 9) ++ "\n"
    | none => pyRStrip rule_text ++ "\n  features:\n"
  header ++ (match tree with
    | none => ""
    | some t => serializeTree t 0)

/-- Builder followed by serializer on the same preview text. -/
def roundTrip (rule_text : String) : Except String String :=
  (load_features_from_yaml rule_text).map (update_preview rule_text)

/-!
Reference builder following the words of the specification, used to
compare against the code when the depth drops (claim C4).
-/

/-- Ascend frame by frame until the newly-closed ancestor has exactly
the target `capa_level`. -/
def ascendWhile : Ctx → DTree → Int → Ctx × DTree
  | [], t, _ => ([], t)
  | f :: rest, t, target =>
    let t2 := closeFrame f t
    if t2.level = target then (rest, t2) else ascendWhile rest t2 target

/-- The specification ascent rule: move to the nearest strict ancestor
whose `capa_level` equals the dropped depth, falling back to the
immediate parent when no ancestor level matches. -/
def ascendToMatch (ctx : Ctx) (t : DTree) (target : Int) : Ctx × DTree :=
  if (ctx.map ZFrame.lvl).contains target then ascendWhile ctx t target
  else ascend ctx t

/-- The builder loop as the specification describes the ascent
(identical to `buildLoop` except that a shallower node attaches at the
nearest level-matching ancestor instead of one level up). -/
def buildClaimLoop (ctx : Ctx) (focus : DTree) (lvl : Int) :
    List LNode → Except String (Ctx × DTree)
  | [] => .ok (ctx, focus)
  | n :: rest =>
    if n.lvl = lvl then
      buildClaimLoop ctx (addNodeT focus n) lvl rest
    else if n.lvl > lvl then
      match descendLast ctx focus with
      | none => .error "AttributeError"
      | some (ctx2, focus2) => buildClaimLoop ctx2 (addNodeT focus2 n) n.lvl rest
    else
      let p := ascendToMatch ctx focus n.lvl
      buildClaimLoop p.1 (addNodeT p.2 n) lvl rest

/-- The builder entry point over the specification ascent rule. -/
def buildClaimT (root : LNode) (ns : List LNode) : Except String DTree :=
  match ns with
  | [] => .ok (leafOf root)
  | n :: _ =>
    (buildClaimLoop [] (leafOf root) n.lvl ns).map (fun p => rootify p.1 p.2)

/-!  Observables on built trees, used to compare tree shapes. -/

mutual

/-- The (feature, comment) columns of the parent of the first node
whose feature text equals `target`. -/
def parentOfFeat (target : String) : DTree → Option (String × String)
  | .node f _ c _ _ ch =>
    if (ch.map DTree.feat).contains target then some (f, c)
    else parentOfFeatL target ch

/-- Search `parentOfFeat` over a list of sibling subtrees. -/
def parentOfFeatL (target : String) : List DTree → Option (String × String)
  | [] => none
  | t :: ts =>
    match parentOfFeat target t with
    | some r => some r
    | none => parentOfFeatL target ts

end

/-!
Expression Flattener and overlap detection
(`scripts/detect_duplicate_features.py`).

The expression tree consumed by `get_child_features` is produced by
the external rule compiler (`capa.engine`), which is not part of this
repository checkout.
-/

/-- Modelled from the spec: the `capa.engine` statement classes used by
`get_child_features` — `And`/`Or`/`Some` carry a list of `children`,
`Not`/`Subscope`/`Range` carry one `child`, and a bare feature object
(an equality-comparable value of type `F`) is a leaf. -/
inductive ExpressionNode (F : Type) where
  | And (children : List (ExpressionNode F))
  | Or (children : List (ExpressionNode F))
  | Some (count : Nat) (children : List (ExpressionNode F))
  | Not (child : ExpressionNode F)
  | Subscope (scope : String) (child : ExpressionNode F)
  | Range (child : ExpressionNode F) (low high : Nat)
  | Leaf (feature : F)

mutual

/-- Function `get_child_features`: `And`/`Or`/`Some` extend with the flattening
of each child in order, `Subscope`/`Range`/`Not` with the flattening of
their single child, and anything else (a bare feature) is appended
itself. -/
def get_child_features {F : Type} : ExpressionNode F → List F
  | .And cs => getChildFeaturesL cs
  | .Or cs => getChildFeaturesL cs
  | .Some _ cs => getChildFeaturesL cs
  | .Subscope _ c => get_child_features c
  | .Range c _ _ => get_child_features c
  | .Not c => get_child_features c
  | .Leaf f => [f]

/-- The `for child in feature.children: children.extend(...)` loop. -/
def getChildFeaturesL {F : Type} : List (ExpressionNode F) → List F
  | [] => []
  | c :: cs => get_child_features c ++ getChildFeaturesL cs

end

mutual

/-- All nodes of an expression tree in pre-order. -/
def preorderNodes {F : Type} : ExpressionNode F → List (ExpressionNode F)
  | .And cs => .And cs :: preorderNodesL cs
  | .Or cs => .Or cs :: preorderNodesL cs
  | .Some k cs => .Some k cs :: preorderNodesL cs
  | .Subscope s c => .Subscope s c :: preorderNodes c
  | .Range c a b => .Range c a b :: preorderNodes c
  | .Not c => .Not c :: preorderNodes c
  | .Leaf f => [.Leaf f]

/-- Pre-order over a list of sibling subtrees. -/
def preorderNodesL {F : Type} : List (ExpressionNode F) → List (ExpressionNode F)
  | [] => []
  | c :: cs => preorderNodes c ++ preorderNodesL cs

end

/-- The feature of a `Leaf`, nothing for every combinator. -/
def leafValue {F : Type} : ExpressionNode F → Option F
  | .Leaf f => some f
  | _ => none

mutual

/-- The number of `Leaf` occurrences reachable in the tree. -/
def leafCount {F : Type} : ExpressionNode F → Nat
  | .And cs => leafCountL cs
  | .Or cs => leafCountL cs
  | .Some _ cs => leafCountL cs
  | .Subscope _ c => leafCount c
  | .Range c _ _ => leafCount c
  | .Not c => leafCount c
  | .Leaf _ => 1

/-- Sum of `leafCount` over a list of sibling subtrees. -/
def leafCountL {F : Type} : List (ExpressionNode F) → Nat
  | [] => 0
  | c :: cs => leafCount c + leafCountL cs

end

/-- The two error shapes of `find_overlapping_rules`: the
`FileNotFoundError` raised for a bad new-rule file name and the
`Warning` raised by `get_features` when a rule fails to parse. -/
inductive RuleError where
  | fileNotFound (msg : String)
  | warning (msg : String)
deriving DecidableEq

/-- The candidate loop of `find_overlapping_rules`: a rule with an
empty flattened feature list is skipped before the counter moves;
otherwise the counter is incremented and the rule name is appended
when any of the new features occurs (by value equality) in the
flattened list. -/
def findOverlapLoop {F : Type} [DecidableEq F] (new_rule_features : List F) :
    List (String × ExpressionNode F) → List String → Nat → List String × Nat
  | [], overlapping, count => (overlapping, count)
  | r :: rest, overlapping, count =>
    let rule_features := get_child_features r.2
    if rule_features.length = 0 then
      findOverlapLoop new_rule_features rest overlapping count
    else
      findOverlapLoop new_rule_features rest
        (if new_rule_features.any (fun f => decide (f ∈ rule_features)) then
          overlapping ++ [r.1]
        else overlapping)
        (count + 1)

/-- Function `find_overlapping_rules`.  File access is abstracted: the result of
`get_features` on the new rule arrives as an `Except` (a `Warning`
when the new rule fails to parse), and the rule set as the parsed
statement of each candidate in supply order. -/
def find_overlapping_rules {F : Type} [DecidableEq F] (new_rule_path : String)
    (new_rule_features : Except String (List F))
    (ruleset : List (String × ExpressionNode F)) :
    Except RuleError (List String × Nat) :=
  if ¬ pyEndsWith new_rule_path ".yml" then
    .error (.fileNotFound "FileNotFoundError ! New rule file name doesn\x27t end with yml")
  else
    match new_rule_features with
    | .error w => .error (.warning w)
    | .ok nf => .ok (findOverlapLoop nf ruleset [] 0)

/-- A line consumed by one of the two description branches of
`add_node`. -/
def isDescLine (n : LNode) : Bool :=
  pyStartsWith n.feature "description:" || pyStartsWith n.feature "- description:"

/-- Classify one line, then serialize the resulting node at depth 0. -/
def reserialize (line : String) : String :=
  let p := parse_feature_for_node line
  parse_node_for_feature p.1 p.2.1 p.2.2 0

/-- Classified lines of a rule whose indentation descends to level 10
in steps 2, 4, 8, 10 and then drops back to level 2: the drop crosses
more than one nesting level and no ancestor of the former parent sits
at the fallback position. -/
def c4nodes : List LNode :=
  [⟨"- and:", "", "A", 2, 0⟩, ⟨"- and:", "", "B", 4, 0⟩, ⟨"- and:", "", "C", 8, 0⟩,
    ⟨"- number: 1", "", "", 10, 1⟩, ⟨"- number: 2", "", "", 2, 1⟩]

/-- A parent that already has one child, to exercise the description
branches of `add_node`. -/
def c5t : DTree :=
  .node "- or:" "" "" 0 0 [.node "- a" "" "" 2 1 []]

/-!  Theorems. -/

theorem appendChild_children (t x : DTree) :
    (t.appendChild x).children = t.children ++ [x] := by
  cases t; rfl

theorem setDescr_children (t : DTree) (v : String) :
    (t.setDescr v).children = t.children := by
  cases t; rfl

theorem setLastChildDescr_children_length (t : DTree) (v : String) :
    (t.setLastChildDescr v).children.length = t.children.length := by
  cases t with
  | node f d c l ty ch =>
    cases ch with
    | nil => rfl
    | cons a as =>
      simp [DTree.setLastChildDescr, DTree.children, List.getLast?_concat,
        List.length_dropLast]
      cases h : (a :: as).getLast? with
      | none => simp [DTree.children]
      | some last => simp [DTree.children, List.length_dropLast]

theorem addNodeT_nonDesc (t : DTree) (n : LNode) (h : isDescLine n = false) :
    addNodeT t n = t.appendChild (leafOf n) := by
  simp only [isDescLine, Bool.or_eq_false_iff] at h
  simp [addNodeT, h.1, h.2]

theorem descendLast_of_children_ne_nil (ctx : Ctx) (t : DTree)
    (h : t.children ≠ []) :
    ∃ ctx2 focus2, descendLast ctx t = some (ctx2, focus2) := by
  cases t with
  | node f d c l ty ch =>
    simp [DTree.children] at h
    cases hch : ch.getLast? with
    | none => exact absurd (List.getLast?_eq_none_iff.mp hch) h
    | some last =>
      exact ⟨⟨f, d, c, l, ty, ch.dropLast⟩ :: ctx, last, by simp [descendLast, hch]⟩

theorem buildLoop_noDesc :
    ∀ (ns : List LNode) (ctx : Ctx) (focus : DTree) (lvl : Int),
      (∀ n ∈ ns, isDescLine n = false) → focus.children ≠ [] →
      ∃ r, buildLoop ctx focus lvl ns = .ok r := by
  intro ns
  induction ns with
  | nil => exact fun _ _ _ _ _ => ⟨_, rfl⟩
  | cons n rest ih =>
    intro ctx focus lvl hnd hch
    have hn : isDescLine n = false := hnd n (by simp)
    have hrest : ∀ m ∈ rest, isDescLine m = false := fun m hm => hnd m (by simp [hm])
    have hne : ∀ (t : DTree), (addNodeT t n).children ≠ [] := by
      intro t
      rw [addNodeT_nonDesc t n hn, appendChild_children]
      simp
    by_cases he : n.lvl = lvl
    · have ⟨r, hr⟩ := ih ctx (addNodeT focus n) lvl hrest (hne focus)
      exact ⟨r, by rw [buildLoop, if_pos he]; exact hr⟩
    · by_cases hg : n.lvl > lvl
      · have ⟨ctx2, focus2, hdl⟩ := descendLast_of_children_ne_nil ctx focus hch
        have ⟨r, hr⟩ := ih ctx2 (addNodeT focus2 n) n.lvl hrest (hne focus2)
        exact ⟨r, by rw [buildLoop, if_neg he, if_pos hg, hdl]; exact hr⟩
      · have ⟨r, hr⟩ :=
          ih (ascend ctx focus).1 (addNodeT (ascend ctx focus).2 n) lvl hrest
            (hne (ascend ctx focus).2)
        exact ⟨r, by rw [buildLoop, if_neg he, if_neg hg]; exact hr⟩

/-- C1.  The round trip is NOT the identity on well-formed texts: on a
text already in canonical form whose expression carries the
description `desc`, `add_node` erases the description (Python
`lstrip("- description:")` strips a character set, and every character
of `desc` belongs to it), so the serialized output lacks the
description line entirely.  The claim asserts byte-for-byte
reproduction of every body line; the code loses one. -/
theorem claim_c1 :
    roundTrip "  features:\n    - and: # c\n      - description: desc\n" =
      .ok "  features:\n    - and: # c\n" ∧
    ("  features:\n    - and: # c\n" : String) ≠
      "  features:\n    - and: # c\n      - description: desc\n" :=
  ⟨rfl, by decide⟩

/-- C3.  `calc_level_by_indent` itself returns `prev_level` for a blank
line, but `yaml_to_nodes` never updates its local `level` variable, so
every blank line is classified with `prev_level = 0`: in the sequence
below the blank third line gets level 0 although the nearest preceding
non-blank line has level 2. -/
theorem claim_c3 :
    calc_level_by_indent "" 2 = 2 ∧
    (yaml_to_nodes "- and:\n  - number: 1\n\n  - number: 2").map LNode.lvl =
      [0, 2, 0, 2] :=
  ⟨rfl, rfl⟩

/-- C5 counterexample.  On `- or:` followed by the sibling
`- number: 1` and then `- description: X` at the same depth, the code
writes the description onto the PARENT (`- or:`), not onto the
most-recently-added sibling (`- number: 1`), refuting the claim that
both description forms target the last sibling first. -/
theorem claim_c5_counterexample :
    load_features_from_yaml "features:\n- or:\n  - number: 1\n  - description: X" =
      .ok (some (.node "- or:" "X" "" 0 0 [.node "- number: 1" "" "" 2 1 []])) :=
  rfl

/-- C6.  Classifying then serializing the counted `number` line
reproduces it exactly (with the canonical depth-0 indentation of four
spaces and the terminating newline), while the counted `string` line
comes back in the two-line form with an indented `description:`
sub-line. -/
theorem claim_c6 :
    reserialize "- count(number(5 = desc)): 3 # note" =
      "    - count(number(5 = desc)): 3 # note\n" ∧
    reserialize "- count(string(5 = desc)): 3 # note" =
      "    - count(string(5)): 3 # note\n      description: desc\n" :=
  ⟨rfl, rfl⟩

/-- C7 counterexample.  A `- count` line that fails the structural
pattern does NOT come back with an empty comment: the comment is split
off at `#` before the pattern is tried, so `- count # x` yields the
comment `x`. -/
theorem claim_c7_counterexample :
    (parse_feature_for_node "- count # x").2.2 ≠ "" :=
  by decide

/-- C10 counterexample.  The builder is not total: after a
`description:` line is absorbed into the parent, a deeper line makes
`build` recurse into `parent.child(-1)`, which is no item, and
`add_node` dereferences it. -/
theorem claim_c10_counterexample :
    load_features_from_yaml "features:\n- or:\n  description: a\n    - number: 1" =
      .error "AttributeError" :=
  rfl

/-- C4 counterexample.  On a drop from level 10 back to level 2 the
code attaches `- number: 2` one level up (under the level-4 node `B`),
while the claimed rule (nearest ancestor whose level matches the
depth) would attach it under the level-2 node `A`. -/
theorem claim_c4_counterexample :
    (buildT ⟨"- or:", "", "", 0, 0⟩ c4nodes).map (parentOfFeat "- number: 2") =
      .ok (some ("- and:", "B")) ∧
    (buildClaimT ⟨"- or:", "", "", 0, 0⟩ c4nodes).map (parentOfFeat "- number: 2") =
      .ok (some ("- and:", "A")) ∧
    (some (("- and:", "B") : String × String)) ≠ some ("- and:", "A") :=
  ⟨rfl, rfl, by decide⟩

/-- C4 amended.  Whenever the builder meets a line whose depth is
strictly less than the current level it ascends exactly ONE level — to
the immediate parent of the current parent, staying put at the root —
and attaches the node there, for every drop in depth, including drops
of more than one nesting level at once; it performs no search for a
level-matching ancestor. -/
theorem claim_c4_amended (ctx : Ctx) (focus : DTree) (lvl : Int) (n : LNode)
    (rest : List LNode) (h : n.lvl < lvl) :
    buildLoop ctx focus lvl (n :: rest) =
      buildLoop (ascend ctx focus).1 (addNodeT (ascend ctx focus).2 n) lvl rest := by
  rw [buildLoop, if_neg (by omega), if_neg (by omega)]

theorem claim_c4_amended_witness :
    buildLoop [⟨"- or:", "", "", 0, 0, []⟩]
        (.node "- and:" "" "" 2 0 [.node "- number: 1" "" "" 4 1 []]) 4
        [⟨"- number: 2", "", "", 2, 1⟩] =
      buildLoop
        (ascend [⟨"- or:", "", "", 0, 0, []⟩]
          (.node "- and:" "" "" 2 0 [.node "- number: 1" "" "" 4 1 []])).1
        (addNodeT
          (ascend [⟨"- or:", "", "", 0, 0, []⟩]
            (.node "- and:" "" "" 2 0 [.node "- number: 1" "" "" 4 1 []])).2
          ⟨"- number: 2", "", "", 2, 1⟩) 4 [] :=
  claim_c4_amended _ _ 4 _ [] (by decide)

/-- C5 amended.  Neither description form creates a standalone node
(the child count is unchanged).  A `description:` line overwrites the
most-recently-added sibling, or the parent itself when no sibling has
been added yet; a `- description:` line ALWAYS overwrites the current
parent, even when siblings exist. -/
theorem claim_c5_amended (t : DTree) (n : LNode) :
    (pyStartsWith n.feature "description:" = true →
      (addNodeT t n).children.length = t.children.length ∧
      (t.children = [] → addNodeT t n = t.setDescr (descValue "description:" n.feature)) ∧
      (t.children ≠ [] →
        addNodeT t n = t.setLastChildDescr (descValue "description:" n.feature))) ∧
    (pyStartsWith n.feature "description:" = false →
      pyStartsWith n.feature "- description:" = true →
      (addNodeT t n).children.length = t.children.length ∧
      addNodeT t n = t.setDescr (descValue "- description:" n.feature)) := by
  constructor
  · intro h1
    by_cases hch : t.children = []
    · have : ¬ t.children.length ≠ 0 := by simp [hch]
      refine ⟨?_, fun _ => ?_, fun hc => absurd hch hc⟩ <;>
        simp [addNodeT, h1, this, setDescr_children]
    · have : t.children.length ≠ 0 := by simp [List.length_eq_zero, hch]
      refine ⟨?_, fun hc => absurd hc hch, fun _ => ?_⟩ <;>
        simp [addNodeT, h1, this, setLastChildDescr_children_length]
  · intro h1 h2
    refine ⟨?_, ?_⟩ <;> simp [addNodeT, h1, h2, setDescr_children]

theorem claim_c5_amended_witness :
    addNodeT c5t ⟨"description: Y", "", "", 2, 1⟩ =
      c5t.setLastChildDescr (descValue "description:" "description: Y") ∧
    addNodeT c5t ⟨"- description: X", "", "", 2, 1⟩ =
      c5t.setDescr (descValue "- description:" "- description: X") :=
  ⟨((claim_c5_amended c5t ⟨"description: Y", "", "", 2, 1⟩).1 (by decide)).2.2
      (by simp [c5t, DTree.children]),
    ((claim_c5_amended c5t ⟨"- description: X", "", "", 2, 1⟩).2 (by decide)
      (by decide)).2⟩

/-- C7 amended.  A `- count` line whose structure does not match the
counted-feature pattern degrades gracefully and totally: the part
before the first `#` is kept, stripped, as the literal feature text,
the description is empty, and the comment is still the (stripped) part
after the first `#` — which is NOT empty when the line carries one. -/
theorem claim_c7_amended (s : String) (h1 : pyStartsWith s "- count" = true)
    (h2 : reSearch countPatA (pyPartition s '#').1.data = none) :
    parse_feature_for_node s =
      (pyStrip (pyPartition s '#').1, "", pyStrip (pyPartition s '#').2) := by
  rw [parse_feature_for_node, if_pos h1]
  simp only [h2]

theorem claim_c7_amended_witness :
    parse_feature_for_node "- count # x" =
      (pyStrip (pyPartition "- count # x" '#').1, "",
        pyStrip (pyPartition "- count # x" '#').2) :=
  claim_c7_amended "- count # x" (by decide) (by decide)

/-- C10 amended.  `add_node` itself is total, and `build` runs to
completion on every classified line sequence that contains no
description line; but a line deeper than the current level arriving
while the current parent has no children (possible only after
description lines were absorbed into an ancestor) dereferences a
missing child item and fails. -/
theorem claim_c10_amended (root : LNode) (ns : List LNode)
    (h : ∀ n ∈ ns, isDescLine n = false) :
    ∃ t, buildT root ns = .ok t := by
  cases ns with
  | nil => exact ⟨_, rfl⟩
  | cons n rest =>
    have hn : isDescLine n = false := h n (by simp)
    have hrest : ∀ m ∈ rest, isDescLine m = false := fun m hm => h m (by simp [hm])
    have hne : (addNodeT (leafOf root) n).children ≠ [] := by
      rw [addNodeT_nonDesc _ n hn, appendChild_children]
      simp
    have ⟨r, hr⟩ := buildLoop_noDesc rest [] (addNodeT (leafOf root) n) n.lvl hrest hne
    refine ⟨rootify r.1 r.2, ?_⟩
    rw [buildT]
    rw [buildLoop, if_pos rfl, hr]
    rfl

theorem claim_c10_amended_witness :
    ∃ t, buildT ⟨"- or:", "", "", 0, 0⟩
      [⟨"- number: 1", "", "", 2, 1⟩, ⟨"- and:", "", "", 2, 0⟩,
        ⟨"- number: 2", "", "", 4, 1⟩] = .ok t :=
  claim_c10_amended _ _ (by decide)

mutual

theorem gcf_eq_preorder {F : Type} (t : ExpressionNode F) :
    get_child_features t = (preorderNodes t).filterMap leafValue := by
  cases t with
  | And cs =>
    simp only [get_child_features, preorderNodes, List.filterMap_cons, leafValue]
    exact gcfL_eq_preorder cs
  | Or cs =>
    simp only [get_child_features, preorderNodes, List.filterMap_cons, leafValue]
    exact gcfL_eq_preorder cs
  | Some k cs =>
    simp only [get_child_features, preorderNodes, List.filterMap_cons, leafValue]
    exact gcfL_eq_preorder cs
  | Subscope s c =>
    simp only [get_child_features, preorderNodes, List.filterMap_cons, leafValue]
    exact gcf_eq_preorder c
  | Range c a b =>
    simp only [get_child_features, preorderNodes, List.filterMap_cons, leafValue]
    exact gcf_eq_preorder c
  | Not c =>
    simp only [get_child_features, preorderNodes, List.filterMap_cons, leafValue]
    exact gcf_eq_preorder c
  | Leaf f =>
    simp [get_child_features, preorderNodes, List.filterMap_cons, leafValue]

theorem gcfL_eq_preorder {F : Type} (ts : List (ExpressionNode F)) :
    getChildFeaturesL ts = (preorderNodesL ts).filterMap leafValue := by
  cases ts with
  | nil => rfl
  | cons c cs =>
    simp only [getChildFeaturesL, preorderNodesL, List.filterMap_append]
    rw [gcf_eq_preorder c, gcfL_eq_preorder cs]

end

mutual

theorem gcf_length {F : Type} (t : ExpressionNode F) :
    (get_child_features t).length = leafCount t := by
  cases t with
  | And cs => exact gcfL_length cs
  | Or cs => exact gcfL_length cs
  | Some k cs => exact gcfL_length cs
  | Subscope s c => exact gcf_length c
  | Range c a b => exact gcf_length c
  | Not c => exact gcf_length c
  | Leaf f => rfl

theorem gcfL_length {F : Type} (ts : List (ExpressionNode F)) :
    (getChildFeaturesL ts).length = leafCountL ts := by
  cases ts with
  | nil => rfl
  | cons c cs =>
    simp only [getChildFeaturesL, leafCountL, List.length_append]
    rw [gcf_length c, gcfL_length cs]

end

/-- C2.  The flattener returns exactly the pre-order sequence of leaf
feature values (each combinator contributing its children in order,
each single-child wrapper its child, each leaf itself), and its length
equals the number of reachable leaf occurrences — no leaf dropped, no
de-duplication. -/
theorem claim_c2 {F : Type} (t : ExpressionNode F) :
    get_child_features t = (preorderNodes t).filterMap leafValue ∧
    (get_child_features t).length = leafCount t :=
  ⟨gcf_eq_preorder t, gcf_length t⟩

theorem findOverlapLoop_spec {F : Type} [DecidableEq F] (new : List F) :
    ∀ (rules : List (String × ExpressionNode F)) (ov : List String) (cnt : Nat),
      findOverlapLoop new rules ov cnt =
        (ov ++ (rules.filter (fun r =>
            decide ((get_child_features r.2).length ≠ 0) &&
            new.any (fun f => decide (f ∈ get_child_features r.2)))).map Prod.fst,
         cnt + (rules.filter
            (fun r => decide ((get_child_features r.2).length ≠ 0))).length) := by
  intro rules
  induction rules with
  | nil => intro ov cnt; simp [findOverlapLoop]
  | cons r rest ih =>
    intro ov cnt
    rw [findOverlapLoop]
    by_cases h0 : (get_child_features r.2).length = 0
    · rw [if_pos h0, ih]
      rw [List.filter_cons, List.filter_cons]
      simp [h0]
    · rw [if_neg h0, ih]
      rw [List.filter_cons, List.filter_cons]
      by_cases h1 : (new.any fun f => decide (f ∈ get_child_features r.2)) = true
      · simp [h0, h1]
        omega
      · simp only [Bool.not_eq_true] at h1
        simp [h0, h1]
        omega

/-- C8.  With a well-suffixed path and a parsed new rule, the loop of
`find_overlapping_rules` counts exactly the candidates whose flattened
feature list is non-empty (the skip happens before the counter), and
reports exactly — in supply order — the candidates for which some
feature of the new rule occurs, by value equality, in the flattened
list. -/
theorem claim_c8 {F : Type} [DecidableEq F] (p : String) (new : List F)
    (rules : List (String × ExpressionNode F))
    (hp : pyEndsWith p ".yml" = true) :
    find_overlapping_rules p (.ok new) rules =
      .ok ((rules.filter
            (fun r => decide (∃ f ∈ new, f ∈ get_child_features r.2))).map Prod.fst,
          (rules.filter (fun r => decide (get_child_features r.2 ≠ []))).length) := by
  rw [find_overlapping_rules, if_neg (by simp [hp])]
  rw [findOverlapLoop_spec]
  simp only [List.nil_append, Nat.zero_add]
  have hpred1 : (fun (r : String × ExpressionNode F) =>
      decide ((get_child_features r.2).length ≠ 0) &&
        new.any (fun f => decide (f ∈ get_child_features r.2))) =
      (fun r => decide (∃ f ∈ new, f ∈ get_child_features r.2)) := by
    funext r
    by_cases hx : ∃ f ∈ new, f ∈ get_child_features r.2
    · have hne : (get_child_features r.2).length ≠ 0 := by
        obtain ⟨f, hf, hmem⟩ := hx
        intro hz
        rw [List.length_eq_zero] at hz
        rw [hz] at hmem
        exact absurd hmem (List.not_mem_nil f)
      have hany : (new.any fun g => decide (g ∈ get_child_features r.2)) = true := by
        rw [List.any_eq_true]
        obtain ⟨f, hf, hmem⟩ := hx
        exact ⟨f, hf, by simp [hmem]⟩
      simp [hne, hany, hx]
    · have hany : (new.any fun g => decide (g ∈ get_child_features r.2)) = false := by
        rw [← Bool.not_eq_true, List.any_eq_true]
        intro hcon
        obtain ⟨f, hf, hd⟩ := hcon
        exact hx ⟨f, hf, by simpa using hd⟩
      simp [hany, hx]
  have hpred2 : (fun (r : String × ExpressionNode F) =>
      decide ((get_child_features r.2).length ≠ 0)) =
      (fun r => decide (get_child_features r.2 ≠ [])) := by
    funext r
    rw [decide_eq_decide, not_iff_not]
    exact List.length_eq_zero
  rw [hpred1, hpred2]

theorem claim_c8_witness :
    find_overlapping_rules "new.yml" (.ok ["mutex: foo", "api: CreateFileA"])
      [("X", ExpressionNode.And [ExpressionNode.Leaf "api: CreateFileA"]),
        ("Y", ExpressionNode.Or [ExpressionNode.Leaf "api: WriteFile"])] =
      .ok (["X"], 2) := by
  rw [claim_c8 "new.yml" ["mutex: foo", "api: CreateFileA"]
    [("X", ExpressionNode.And [ExpressionNode.Leaf "api: CreateFileA"]),
      ("Y", ExpressionNode.Or [ExpressionNode.Leaf "api: WriteFile"])] (by decide)]
  rfl

/-- C9.  A new-rule path without the `.yml` suffix produces the
distinguished file-name error whatever the (unread) new-rule content
and candidate set are — so no file matters and zero candidates are
examined — while a well-suffixed path can never produce that error. -/
theorem claim_c9 {F : Type} [DecidableEq F] (p : String)
    (new : Except String (List F)) (rules : List (String × ExpressionNode F)) :
    (pyEndsWith p ".yml" = false →
      find_overlapping_rules p new rules =
        .error (.fileNotFound
          "FileNotFoundError ! New rule file name doesn\x27t end with yml")) ∧
    (pyEndsWith p ".yml" = true →
      ∀ msg, find_overlapping_rules p new rules ≠ .error (.fileNotFound msg)) := by
  constructor
  · intro h
    rw [find_overlapping_rules.eq_def, if_pos (by simp [h])]
  · intro h msg
    rw [find_overlapping_rules.eq_def, if_neg (by simp [h])]
    cases new <;> simp

theorem claim_c9_witness :
    find_overlapping_rules (F := Nat) "rule.yaml" (.ok []) [] =
      .error (.fileNotFound
        "FileNotFoundError ! New rule file name doesn\x27t end with yml") ∧
    find_overlapping_rules (F := Nat) "rule.yml" (.ok []) [] ≠
      .error (.fileNotFound
        "FileNotFoundError ! New rule file name doesn\x27t end with yml") :=
  ⟨(claim_c9 "rule.yaml" (.ok []) []).1 (by decide),
    (claim_c9 "rule.yml" (.ok []) []).2 (by decide) _⟩

end Capa


